import Mathlib

/-!
Verification of the notebook 04_keras_CNN.ipynb: a shallow embedding of the
declarative configuration values the notebook passes to the Keras library
(layer stacks, optimizer settings, training parameters, augmentation
settings), together with theorems relating them to the stated design.
-/

namespace KerasCNN

/-- Activation function names appearing in the notebook. -/
inductive Activ
  | relu
  | softmax
deriving DecidableEq

/-- Border mode of a convolution layer. Keras defaults to valid when the
argument is omitted. -/
inductive BorderMode
  | same
  | valid
deriving DecidableEq

/-- Layer configurations, as stacked by the sequential-API cell. Parameters
are those the notebook passes; learned weights are not part of the
configuration. -/
inductive Layer
  | convolution2D (nb_filter nb_row nb_col : ℕ) (border : BorderMode)
  | activation (a : Activ)
  | maxPooling2D (pool_h pool_w : ℕ)
  | dropout (p : ℚ)
  | flatten
  | dense (units : ℕ)
deriving DecidableEq

/-- The number of CIFAR-10 classes, as set in the loading cell. -/
def nb_classes : ℕ := 10

/-- The layer stack declared through the sequential API: an instance of
Sequential to which the notebook adds each layer in this order. Convolution
calls without a border_mode argument use the Keras default valid. -/
def sequentialLayers : List Layer :=
  [ .convolution2D 32 3 3 .same,
    .activation .relu,
    .convolution2D 32 3 3 .valid,
    .activation .relu,
    .maxPooling2D 2 2,
    .dropout 0.25,
    .convolution2D 64 3 3 .same,
    .activation .relu,
    .convolution2D 64 3 3 .valid,
    .activation .relu,
    .maxPooling2D 2 2,
    .dropout 0.25,
    .flatten,
    .dense 512,
    .activation .relu,
    .dropout 0.5,
    .dense nb_classes,
    .activation .softmax ]

/-- Layers as written in the functional-API cell, where convolution and
dense layers may carry a fused activation argument. -/
inductive FLayer
  | convolution2D (nb_filter nb_row nb_col : ℕ) (activation : Option Activ)
      (border : BorderMode)
  | maxPooling2D (pool_h pool_w : ℕ)
  | dropout (p : ℚ)
  | flatten
  | dense (units : ℕ) (activation : Option Activ)
  | activation (a : Activ)
deriving DecidableEq

/-- The layer chain declared through the functional API, from the Input
instance to the softmax output, in application order. -/
def functionalLayers : List FLayer :=
  [ .convolution2D 32 3 3 (some .relu) .same,
    .convolution2D 32 3 3 (some .relu) .valid,
    .maxPooling2D 2 2,
    .dropout 0.25,
    .convolution2D 64 3 3 (some .relu) .same,
    .convolution2D 64 3 3 (some .relu) .valid,
    .maxPooling2D 2 2,
    .dropout 0.25,
    .flatten,
    .dense 512 (some .relu),
    .dropout 0.5,
    .dense nb_classes none,
    .activation .softmax ]

/-- An optional fused activation, as the separate activation layer it
abbreviates. -/
def actLayers : Option Activ → List Layer
  | none => []
  | some a => [.activation a]

/-- A functional-API layer as the sequential-API layers it abbreviates: a
fused activation argument is the corresponding activation layer placed
after the weighted layer. -/
def FLayer.desugar : FLayer → List Layer
  | .convolution2D f r c a b => Layer.convolution2D f r c b :: actLayers a
  | .maxPooling2D h w => [.maxPooling2D h w]
  | .dropout p => [.dropout p]
  | .flatten => [.flatten]
  | .dense u a => Layer.dense u :: actLayers a
  | .activation a => [.activation a]

/-- Desugaring of a whole functional-API layer chain. -/
def desugarAll (ls : List FLayer) : List Layer :=
  ls.foldr (fun l acc => l.desugar ++ acc) []

/-- Forward pass of a layer stack under an arbitrary interpretation of each
layer configuration as a function on data. Since the weighted layers of the
stack all have distinct configurations, the interpretation may assign each
its own weights. -/
def forward {T : Type} (step : Layer → T → T) (layers : List Layer) (x : T) : T :=
  layers.foldl (fun t l => step l t) x

/-- The spec layer block: convolution, activation, convolution, activation,
pooling, dropout, at a given channel width. -/
def specBlock (width : ℕ) : List Layer :=
  [ .convolution2D width 3 3 .same,
    .activation .relu,
    .convolution2D width 3 3 .valid,
    .activation .relu,
    .maxPooling2D 2 2,
    .dropout 0.25 ]

/-- The spec tail: flatten, dense 512, activation, dropout, dense 10,
softmax. -/
def specTail : List Layer :=
  [ .flatten,
    .dense 512,
    .activation .relu,
    .dropout 0.5,
    .dense 10,
    .activation .softmax ]

/-- C1: the declared model is exactly the fixed layer sequence the spec
states: the block convolution, activation, convolution, activation, pooling,
dropout occurring twice with channel width increasing from 32 to 64 filters,
followed by flatten, dense 512, activation, dropout, dense 10, softmax, with
no other layers and in no other order. -/
theorem seq_model_matches_spec_layout :
    sequentialLayers = specBlock 32 ++ specBlock 64 ++ specTail := by
  rfl

/-- C2: the sequential-API and functional-API declarations are equivalent
models: once the fused activation arguments of the functional version are
read as the activation layers they abbreviate, the two stacks are the same
layer sequence, so under every interpretation of layer configurations as
functions (in particular, every assignment of weights) the forward passes
agree on every input. -/
theorem functional_equiv_sequential {T : Type} (step : Layer → T → T) (x : T) :
    forward step (desugarAll functionalLayers) x = forward step sequentialLayers x := by
  have h : desugarAll functionalLayers = sequentialLayers := by rfl
  rw [h]

/-- A numeric array in the style of the loaded dataset arrays: a shape
together with the flat buffer of entries. -/
structure NDArray (α : Type) where
  shape : List ℕ
  data : List α
deriving DecidableEq

/-- Round-half-to-even of the ratio a / d of naturals (for positive d):
the nearest integer to a / d, ties going to the even neighbour, computed
from integer division with remainder. This is the IEEE 754 default
rounding rule. -/
def rndNE (a d : ℕ) : ℕ :=
  if 2 * (a % d) < d then a / d
  else if d < 2 * (a % d) then a / d + 1
  else if (a / d) % 2 = 0 then a / d else a / d + 1

/-- Fuel-bounded search for the least k with d ≤ n * 2 ^ k: the number of
doublings that bring the quotient n / d up to at least one, which locates
the binade of a quotient below one. -/
def leastShift : ℕ → ℕ → ℕ → ℕ
  | 0, _, _ => 0
  | fuel + 1, n, d => if d ≤ n then 0 else leastShift fuel (2 * n) d + 1

/-- The scaling exponent for the float32 quotient p / 255: with
k = leastShift 9 p 255 (nine doublings always suffice, as 2 ^ 8 ≥ 255), a
nonzero quotient lies in the binade from 2 ^ (-k) up to 2 ^ (1 - k),
where consecutive binary32 values are 2 ^ (-(k + 23)) apart; pixShift p
is k + 23, the scaling that turns p / 255 into a 24-bit significand. -/
def pixShift (p : ℕ) : ℕ := leastShift 9 p 255 + 23

/-- The rounded 24-bit significand of the float32 quotient p / 255:
p / 255 scaled by 2 ^ pixShift p and rounded to the nearest integer with
ties to even, exactly as IEEE 754 binary32 division rounds. -/
def pixSig (p : ℕ) : ℕ := rndNE (p * 2 ^ pixShift p) 255

/-- The normalization applied to a single pixel in the loading cell:
astype float32 is exact on 0..255, and the float32 division by 255 then
stores the correctly rounded (round-to-nearest, ties-to-even) binary32
value of p / 255, here as the exact rational pixSig p / 2 ^ pixShift p.
All nonzero quotients lie inside the binary32 normal range, so no
subnormal or overflow handling is involved, and p = 0 gives exactly 0. -/
def normalizePixel (p : ℕ) : ℚ := (pixSig p : ℚ) / 2 ^ pixShift p

/-- The normalization of a whole image array, as applied to X_train and
X_test: the elementwise float32 conversion and division by 255, leaving
the shape as it was. -/
def normalizeArray (a : NDArray ℕ) : NDArray ℚ :=
  { shape := a.shape, data := a.data.map normalizePixel }

-- Over the pixel range the rounded significand never exceeds the scaling
-- power, so every stored quotient is at most one.
set_option maxRecDepth 40000 in
theorem pixSig_le_pow : ∀ p ≤ 255, pixSig p ≤ 2 ^ pixShift p := by decide

-- The rounded significand is within half a unit of the exact scaled
-- quotient p * 2 ^ pixShift p / 255, stated with cleared denominators.
set_option maxRecDepth 40000 in
theorem pixSig_near : ∀ p ≤ 255,
    2 * (p * 2 ^ pixShift p) ≤ 2 * (255 * pixSig p) + 255 ∧
    2 * (255 * pixSig p) ≤ 2 * (p * 2 ^ pixShift p) + 255 := by decide

theorem normalizePixel_nonneg (p : ℕ) : 0 ≤ normalizePixel p := by
  unfold normalizePixel
  positivity

theorem normalizePixel_le_one (p : ℕ) (hp : p ≤ 255) : normalizePixel p ≤ 1 := by
  unfold normalizePixel
  rw [div_le_one (by positivity)]
  exact_mod_cast pixSig_le_pow p hp

theorem normalizePixel_half_ulp (p : ℕ) (hp : p ≤ 255) :
    |normalizePixel p - (p : ℚ) / 255| ≤ 1 / (2 * 2 ^ pixShift p) := by
  obtain ⟨h1, h2⟩ := pixSig_near p hp
  have h1q : 2 * ((p : ℚ) * 2 ^ pixShift p) ≤ 2 * (255 * (pixSig p : ℚ)) + 255 := by
    exact_mod_cast h1
  have h2q : 2 * (255 * (pixSig p : ℚ)) ≤ 2 * ((p : ℚ) * 2 ^ pixShift p) + 255 := by
    exact_mod_cast h2
  have hpow : (0 : ℚ) < (2 : ℚ) ^ pixShift p := pow_pos (by norm_num) _
  have hden : (0 : ℚ) < 255 * (2 : ℚ) ^ pixShift p :=
    mul_pos (by norm_num) hpow
  have hrw : normalizePixel p - (p : ℚ) / 255 =
      (255 * (pixSig p : ℚ) - p * 2 ^ pixShift p) / (255 * 2 ^ pixShift p) := by
    rw [normalizePixel, div_sub_div _ _ hpow.ne' (by norm_num : (255 : ℚ) ≠ 0)]
    rw [mul_comm ((2 : ℚ) ^ pixShift p) 255]
    ring_nf
  have habs : |255 * (pixSig p : ℚ) - p * 2 ^ pixShift p| ≤ 255 / 2 :=
    abs_le.2 ⟨by linarith, by linarith⟩
  have heq : (255 / 2 : ℚ) / (255 * 2 ^ pixShift p) = 1 / (2 * 2 ^ pixShift p) := by
    rw [div_div, div_eq_div_iff (by positivity) (by positivity)]
    ring
  rw [hrw, abs_div, abs_of_pos hden]
  rw [← heq]
  exact (div_le_div_iff_of_pos_right hden).2 habs

/-- C3 counterexample: for the one-pixel array holding the raw value 1,
the stored normalized value is the float32 rounding of 1 / 255, namely
8421505 / 2 ^ 31, which is not 1 / 255: the exact-equality part of the
claim fails on the code. -/
theorem normalize_stored_value_not_exact :
    (normalizeArray (NDArray.mk [1] [1])).data ≠ [(1 : ℚ) / 255] := by
  have hsig : pixSig 1 = 8421505 := by decide
  have hshift : pixShift 1 = 31 := by decide
  show [normalizePixel 1] ≠ [(1 : ℚ) / 255]
  simp only [ne_eq, List.cons.injEq, and_true]
  show ¬ ((pixSig 1 : ℚ) / 2 ^ pixShift 1 = (1 : ℚ) / 255)
  rw [hsig, hshift]
  norm_num

/-- C3 (amended): normalization stores, for every pixel p in 0..255, the
correctly rounded float32 value of p / 255 — within half an ulp of
p / 255, and in general not equal to it — a value in the interval from 0
to 1, and leaves the array shape unchanged. -/
theorem normalize_float32_unit_interval (a : NDArray ℕ)
    (h : ∀ p ∈ a.data, p ≤ 255) :
    (normalizeArray a).shape = a.shape ∧
    (normalizeArray a).data = a.data.map normalizePixel ∧
    (∀ p ∈ a.data, |normalizePixel p - (p : ℚ) / 255| ≤ 1 / (2 * 2 ^ pixShift p)) ∧
    ∀ q ∈ (normalizeArray a).data, 0 ≤ q ∧ q ≤ 1 := by
  refine ⟨rfl, rfl, ?_, ?_⟩
  · intro p hp
    exact normalizePixel_half_ulp p (h p hp)
  · intro q hq
    rcases List.mem_map.1 hq with ⟨p, hp, rfl⟩
    exact ⟨normalizePixel_nonneg p, normalizePixel_le_one p (h p hp)⟩

/-- Witness for the amended C3 theorem, at a concrete 2 by 2 array of
in-range pixels. -/
theorem normalize_float32_unit_interval_witness :
    (∀ p ∈ (NDArray.mk [2, 2] [0, 255, 17, 128]).data, p ≤ 255) ∧
    ((normalizeArray (NDArray.mk [2, 2] [0, 255, 17, 128])).shape =
        (NDArray.mk [2, 2] ([0, 255, 17, 128] : List ℕ)).shape ∧
      (normalizeArray (NDArray.mk [2, 2] [0, 255, 17, 128])).data =
        (NDArray.mk [2, 2] ([0, 255, 17, 128] : List ℕ)).data.map normalizePixel ∧
      (∀ p ∈ (NDArray.mk [2, 2] ([0, 255, 17, 128] : List ℕ)).data,
        |normalizePixel p - (p : ℚ) / 255| ≤ 1 / (2 * 2 ^ pixShift p)) ∧
      ∀ q ∈ (normalizeArray (NDArray.mk [2, 2] [0, 255, 17, 128])).data,
        0 ≤ q ∧ q ≤ 1) :=
  ⟨by decide, normalize_float32_unit_interval (NDArray.mk [2, 2] [0, 255, 17, 128])
    (by decide)⟩

/-- The label conversion np_utils.to_categorical called in the loading
cell, modelled from the documented library behavior the spec glossary
restates: a class index becomes the vector with a single 1 at that index
and 0 elsewhere. -/
def to_categorical (t : ℕ) (n : ℕ) : List ℚ :=
  (List.range n).map (fun i => if i = t then 1 else 0)

/-- C4: for every class label t with t < 10, the conversion with
nb_classes = 10 yields a length-10 vector whose entry at index t is 1 and
whose every other entry is 0. -/
theorem to_categorical_one_hot (t : ℕ) (ht : t < nb_classes) :
    (to_categorical t nb_classes).length = nb_classes ∧
    (to_categorical t nb_classes).getD t 0 = 1 ∧
    ∀ i < nb_classes, i ≠ t → (to_categorical t nb_classes).getD i 0 = 0 := by
  have ht10 : t < 10 := ht
  interval_cases t <;>
    refine ⟨rfl, rfl, ?_⟩ <;> decide

/-- Witness for C4, at the class label 3 used as the example in the
notebook prose. -/
theorem to_categorical_one_hot_witness :
    3 < nb_classes ∧
    ((to_categorical 3 nb_classes).length = nb_classes ∧
      (to_categorical 3 nb_classes).getD 3 0 = 1 ∧
      ∀ i < nb_classes, i ≠ 3 → (to_categorical 3 nb_classes).getD i 0 = 0) :=
  ⟨by decide, to_categorical_one_hot 3 (by decide)⟩

/-- The SGD optimizer configuration type: the parameters the notebook
passes to the SGD constructor. -/
structure SGDConfig where
  lr : ℚ
  decay : ℚ
  momentum : ℚ
  nesterov : Bool
deriving DecidableEq

/-- The arguments of a model.compile call. -/
structure CompileConfig where
  loss : String
  optimizer : SGDConfig
  metrics : List String
deriving DecidableEq

/-- The optimizer built in the compilation cell, with the literals of the
source. -/
def sgd : SGDConfig :=
  { lr := 0.01, decay := 1e-6, momentum := 0.9, nesterov := true }

/-- The model.compile call of the compilation cell. -/
def compileCall : CompileConfig :=
  { loss := "categorical_crossentropy", optimizer := sgd, metrics := ["accuracy"] }

/-- C5: the compilation call is parameterized exactly by the loss name
categorical_crossentropy, an SGD configuration with learning rate 1/100,
decay 1/1000000, momentum 9/10 and Nesterov acceleration enabled, and the
metric list holding exactly the name accuracy. -/
theorem compile_config_values :
    compileCall.loss = "categorical_crossentropy" ∧
    compileCall.optimizer.lr = 1 / 100 ∧
    compileCall.optimizer.decay = 1 / 1000000 ∧
    compileCall.optimizer.momentum = 9 / 10 ∧
    compileCall.optimizer.nesterov = true ∧
    compileCall.metrics = ["accuracy"] := by
  refine ⟨rfl, ?_, ?_, ?_, rfl, rfl⟩ <;> norm_num [compileCall, sgd]

/-- The ImageDataGenerator configuration type: the keyword arguments the
notebook passes in the training cell. -/
structure DataGenConfig where
  featurewise_center : Bool
  samplewise_center : Bool
  featurewise_std_normalization : Bool
  samplewise_std_normalization : Bool
  zca_whitening : Bool
  rotation_range : ℚ
  width_shift_range : ℚ
  height_shift_range : ℚ
  horizontal_flip : Bool
  vertical_flip : Bool
deriving DecidableEq

/-- The generator built in the training cell, with the literals of the
source. -/
def datagen : DataGenConfig :=
  { featurewise_center := false,
    samplewise_center := false,
    featurewise_std_normalization := false,
    samplewise_std_normalization := false,
    zca_whitening := false,
    rotation_range := 0,
    width_shift_range := 0.1,
    height_shift_range := 0.1,
    horizontal_flip := true,
    vertical_flip := false }

/-- The dataset a training call validates on. -/
inductive ValidationData
  | testSet
deriving DecidableEq

/-- The shape of a training invocation: either a plain model.fit call or a
model.fit_generator call wrapping an augmentation generator, each with the
arguments the notebook passes. In the generator branch the batch size is
the one handed to datagen.flow. -/
inductive TrainCall
  | fit (batch_size nb_epoch : ℕ) (validation : ValidationData) (shuffle : Bool)
  | fit_generator (gen : DataGenConfig) (flow_batch_size : ℕ)
      (samples_per_epoch nb_epoch : ℕ) (validation : ValidationData)
deriving DecidableEq

/-- Training parameters set in the parameter cell. -/
def batch_size : ℕ := 128

/-- Epoch count set in the parameter cell. -/
def nb_epoch : ℕ := 200

/-- The data-augmentation toggle set in the parameter cell. -/
def data_augmentation : Bool := true

/-- The training cell: the branch on the augmentation toggle, abstracted
over the toggle and over the number of training samples n (the code reads
it as the leading dimension of X_train). -/
def trainingCall (aug : Bool) (n : ℕ) : TrainCall :=
  if ¬ aug then
    .fit batch_size nb_epoch .testSet true
  else
    .fit_generator datagen batch_size n nb_epoch .testSet

/-- C6: the training invocation uses batch size 128 and epoch count 200;
with the augmentation toggle True (its value in the notebook) it is a
fit_generator call wrapping the augmentation generator, with
samples_per_epoch equal to the number n of training samples and the test
set as validation data, while with the toggle False it is a model.fit call
with the same batch size, epoch count and validation set. -/
theorem training_invocation_params (n : ℕ) :
    batch_size = 128 ∧
    nb_epoch = 200 ∧
    data_augmentation = true ∧
    trainingCall true n = .fit_generator datagen batch_size n nb_epoch .testSet ∧
    trainingCall false n = .fit batch_size nb_epoch .testSet true := by
  exact ⟨rfl, rfl, rfl, rfl, rfl⟩

/-- The augmentation transformations a generator configuration enables: a
boolean field contributes exactly when set, a numeric range exactly when
nonzero, carrying its magnitude. -/
def enabledTransforms (c : DataGenConfig) : List String :=
  (if c.featurewise_center then ["featurewise_center"] else []) ++
  (if c.samplewise_center then ["samplewise_center"] else []) ++
  (if c.featurewise_std_normalization then ["featurewise_std_normalization"] else []) ++
  (if c.samplewise_std_normalization then ["samplewise_std_normalization"] else []) ++
  (if c.zca_whitening then ["zca_whitening"] else []) ++
  (if c.rotation_range ≠ 0 then ["rotation"] else []) ++
  (if c.width_shift_range ≠ 0 then ["width_shift"] else []) ++
  (if c.height_shift_range ≠ 0 then ["height_shift"] else []) ++
  (if c.horizontal_flip then ["horizontal_flip"] else []) ++
  (if c.vertical_flip then ["vertical_flip"] else [])

/-- The augmentation pipeline of a generator configuration, over an
abstract image type: each stage is applied exactly when its configuration
field enables it, the range-driven stages receiving their range. The stage
functions themselves are arbitrary, standing for whatever the library
does when a transformation is enabled. -/
def augment {Img : Type} (c : DataGenConfig)
    (fCenter sCenter fStd sStd zca : Img → Img)
    (rot wshift hshift : ℚ → Img → Img)
    (hflip vflip : Img → Img) (img : Img) : Img :=
  let i1 := if c.featurewise_center then fCenter img else img
  let i2 := if c.samplewise_center then sCenter i1 else i1
  let i3 := if c.featurewise_std_normalization then fStd i2 else i2
  let i4 := if c.samplewise_std_normalization then sStd i3 else i3
  let i5 := if c.zca_whitening then zca i4 else i4
  let i6 := if c.rotation_range ≠ 0 then rot c.rotation_range i5 else i5
  let i7 := if c.width_shift_range ≠ 0 then wshift c.width_shift_range i6 else i6
  let i8 := if c.height_shift_range ≠ 0 then hshift c.height_shift_range i7 else i7
  let i9 := if c.horizontal_flip then hflip i8 else i8
  if c.vertical_flip then vflip i9 else i9

/-- C10: the generator of the training cell enables exactly horizontal
shifts of range 1/10 of the width, vertical shifts of range 1/10 of the
height, and horizontal flips; rotation, vertical flips, ZCA whitening and
all centering and standard-deviation normalization are disabled, so
whatever functions the enabled and disabled stages stand for, augmenting
an image applies only the two shift stages and the horizontal flip stage
to it. -/
theorem datagen_only_shift_and_flip {Img : Type}
    (fCenter sCenter fStd sStd zca : Img → Img)
    (rot wshift hshift : ℚ → Img → Img)
    (hflip vflip : Img → Img) (img : Img) :
    enabledTransforms datagen = ["width_shift", "height_shift", "horizontal_flip"] ∧
    datagen.width_shift_range = 1 / 10 ∧
    datagen.height_shift_range = 1 / 10 ∧
    datagen.rotation_range = 0 ∧
    augment datagen fCenter sCenter fStd sStd zca rot wshift hshift hflip vflip img =
      hflip (hshift datagen.height_shift_range
        (wshift datagen.width_shift_range img)) := by
  have h01 : (0.1 : ℚ) ≠ 0 := by norm_num
  refine ⟨?_, by norm_num [datagen], by norm_num [datagen], rfl, ?_⟩
  · simp [enabledTransforms, datagen, h01]
  · simp [augment, datagen, h01]

/-- The notebook as a pipeline of fallible library calls: data loading,
preprocessing (normalization and label conversion), model construction,
compilation, training. Each stage is an arbitrary function that may fail
with an error of type E; the pipeline chains them with plain sequencing
and contains no catch, retry, wrap or transform of an error. -/
def notebookPipeline {E Raw Data MDef CModel R : Type}
    (load : Except E Raw)
    (preprocess : Raw → Except E Data)
    (build : Data → Except E MDef)
    (compileStep : MDef → Except E CModel)
    (train : CModel → Data → Except E R) : Except E R := do
  let raw ← load
  let data ← preprocess raw
  let mdef ← build data
  let cm ← compileStep mdef
  train cm data

/-- C8: whichever stage of the pipeline fails, and whatever error value e
it fails with, the pipeline result is exactly Except.error e: every
library failure propagates unchanged to the top level, with no recovery,
wrapping or transformation at any of the state-changing steps. -/
theorem failures_propagate {E Raw Data MDef CModel R : Type}
    (e : E) (raw : Raw) (data : Data) (mdef : MDef) (cm : CModel)
    (preprocess : Raw → Except E Data)
    (build : Data → Except E MDef)
    (compileStep : MDef → Except E CModel)
    (train : CModel → Data → Except E R) :
    notebookPipeline (Except.error e) preprocess build compileStep train =
      Except.error e ∧
    notebookPipeline (Except.ok raw) (fun _ => Except.error e) build compileStep
      train = Except.error e ∧
    notebookPipeline (Except.ok raw) (fun _ => Except.ok data)
      (fun _ => Except.error e) compileStep train = Except.error e ∧
    notebookPipeline (Except.ok raw) (fun _ => Except.ok data)
      (fun _ => Except.ok mdef) (fun _ => Except.error e) train =
      Except.error e ∧
    notebookPipeline (Except.ok raw) (fun _ => Except.ok data)
      (fun _ => Except.ok mdef) (fun _ => Except.ok cm)
      (fun _ _ => (Except.error e : Except E R)) = Except.error e := by
  exact ⟨rfl, rfl, rfl, rfl, rfl⟩

/-- The two model objects the notebook constructs. -/
inductive ModelVal
  | sequentialModel
  | functionalModel
deriving DecidableEq

/-- A top-level notebook statement touching the name model: either an
assignment binding the name to a model object, or a method call on
whatever the name is currently bound to. -/
inductive Stmt
  | assignModel (v : ModelVal)
  | callModel (method : String)
deriving DecidableEq

/-- The statements of the notebook involving the name model, in cell
order: the sequential-API cell binds it, the functional-API cell rebinds
it, then the summary, compile and training cells call methods on it. -/
def notebookStmts : List Stmt :=
  [ .assignModel .sequentialModel,
    .assignModel .functionalModel,
    .callModel "summary",
    .callModel "compile",
    .callModel "fit_generator" ]

/-- Resolution of the method calls of a statement list against the
binding of the name model, carried as the state: each call is paired with
the model object the name denotes when the call runs. -/
def resolveCalls : List Stmt → Option ModelVal → List (ModelVal × String)
  | [], _ => []
  | .assignModel v :: rest, _ => resolveCalls rest (some v)
  | .callModel m :: rest, some v => (v, m) :: resolveCalls rest (some v)
  | .callModel _ :: rest, none => resolveCalls rest none

/-- C9: the functional-API cell rebinds the name model, so the summary,
compile and fit_generator calls all resolve to the functional Model
instance, and no method call of the notebook ever resolves to the
Sequential model: it receives no operation after its defining cell. -/
theorem functional_model_receives_calls :
    resolveCalls notebookStmts none =
      [ (ModelVal.functionalModel, "summary"),
        (ModelVal.functionalModel, "compile"),
        (ModelVal.functionalModel, "fit_generator") ] ∧
    ∀ m : String, (ModelVal.sequentialModel, m) ∉ resolveCalls notebookStmts none := by
  refine ⟨rfl, ?_⟩
  intro m hm
  rw [show resolveCalls notebookStmts none =
      [ (ModelVal.functionalModel, "summary"),
        (ModelVal.functionalModel, "compile"),
        (ModelVal.functionalModel, "fit_generator") ] from rfl] at hm
  simp at hm

end KerasCNN
